import Mathlib

set_option maxRecDepth 4000

namespace Nouhin

/-!
Verification of the Nouhin scheduled/automatic report delivery engine.

This file gives a shallow embedding of the decision logic of the repository:
the report store bookkeeping (`app/report_manager.py`), the scheduled
dispatcher (`cron_sender.py`), the automatic dispatcher
(`app/enhanced_automatic_delivery_manager.py`) and the Slack delivery module
(`delivery/slack_delivery_simple.py`), and proves or refutes the frozen
specification claims about them.

Python dictionaries holding report records are modelled as association lists
from string keys to a JSON-like value type; numeric bookkeeping fields are
modelled as integers.  External collaborators (the GitHub-backed store, the
Slack Web API, Google Sheets) are modelled as explicit state or environment
parameters; a save to the store is the returned updated map.
-/

/-- JSON-like values stored in report dictionaries. -/
inductive Value
  | str (s : String)
  | int (n : Int)
  | bool (b : Bool)
  | null
deriving DecidableEq, Repr

/-- A Python dict with string keys, as an insertion-ordered association list. -/
abbrev Dict := List (String × Value)

/-- Lookup in an association list (first binding wins, as in a Python dict
where keys are unique). -/
def alookup {α : Type} : List (String × α) → String → Option α
  | [], _ => none
  | (k, v) :: rest, key => if key = k then some v else alookup rest key

/-- `d[k] = v` on an association list: replace in place if the key exists,
append otherwise (Python dicts keep insertion order). -/
def aset {α : Type} : List (String × α) → String → α → List (String × α)
  | [], key, v => [(key, v)]
  | (k, w) :: rest, key, v =>
      if k = key then (k, v) :: rest else (k, w) :: aset rest key v

/-- `d.get(k, dflt)` of a Python dict. -/
def dget (d : Dict) (k : String) (dflt : Value) : Value :=
  (alookup d k).getD dflt

/-- Python truthiness of a stored value. -/
def truthy : Value → Bool
  | .str s => s ≠ ""
  | .int n => n ≠ 0
  | .bool b => b
  | .null => false

/-- Read a string-typed field, with a fallback for non-string values. -/
def asStrD : Value → String → String
  | .str s, _ => s
  | _, d => d

/-- Read an integer-typed field, with a fallback for non-numeric values. -/
def asIntD : Value → Int → Int
  | .int n, _ => n
  | .bool b, _ => if b then 1 else 0
  | _, d => d

/-! ## Report store (`app/report_manager.py`) -/

/-- The map of report records held in `reports.json`, keyed by report id. -/
abbrev Reports := List (String × Dict)

/-- The fixed key set of `_standardize_report_data`. -/
def standard_field_keys : List String :=
  ["id", "name", "author", "receiver", "link", "raw_data_link", "channel",
   "thread_content", "thread_ts", "date", "delivery_mode", "schedule_enabled",
   "schedule_time", "automatic_task_id", "created_at", "updated_at",
   "last_delivered", "delivery_count", "status"]

/-- `ReportManager._standardize_report_data`: rebuild the record through the
fixed standard schema, filling defaults from `data.get`. -/
def standardize_report_data (data : Dict) : Dict :=
  [("id", .str ""),
   ("name", dget data "name" (.str "")),
   ("author", dget data "author" (.str "")),
   ("receiver", dget data "receiver" (.str "")),
   ("link", dget data "link" (.str "")),
   ("raw_data_link", dget data "raw_data_link" (.str "")),
   ("channel", dget data "channel" (.str "")),
   ("thread_content", dget data "thread_content" (.str "")),
   ("thread_ts", dget data "thread_ts" .null),
   ("date", dget data "date" (.str "")),
   ("delivery_mode", dget data "delivery_mode" (.str "manual")),
   ("schedule_enabled", dget data "schedule_enabled" (.bool false)),
   ("schedule_time", dget data "schedule_time" (.str "09:00")),
   ("automatic_task_id", dget data "automatic_task_id" (.str "")),
   ("created_at", dget data "created_at" (.str "")),
   ("updated_at", dget data "updated_at" (.str "")),
   ("last_delivered", dget data "last_delivered" .null),
   ("delivery_count", dget data "delivery_count" (.int 0)),
   ("status", dget data "status" (.str "active"))]

/-- `ReportManager.update_report`.  `now` stands for
`datetime.now().isoformat()`.  Returns the Python boolean result together
with the saved report map (the map is unchanged when the id is unknown). -/
def update_report (reports : Reports) (now : String) (rid : String)
    (data : Dict) : Bool × Reports :=
  match alookup reports rid with
  | none => (false, reports)
  | some existing =>
    let s := standardize_report_data data
    let s := aset s "id" (.str rid)
    let s := aset s "created_at" (dget existing "created_at" (.str now))
    let s := aset s "updated_at" (.str now)
    let s := aset s "delivery_count" (dget existing "delivery_count" (.int 0))
    let s := aset s "last_delivered" (dget existing "last_delivered" .null)
    (true, aset reports rid s)

/-- `ReportManager.increment_delivery_count`. -/
def increment_delivery_count (reports : Reports) (now : String)
    (rid : String) : Bool × Reports :=
  match alookup reports rid with
  | none => (false, reports)
  | some d =>
    let d := aset d "delivery_count"
      (.int (asIntD (dget d "delivery_count" (.int 0)) 0 + 1))
    let d := aset d "last_delivered" (.str now)
    let d := aset d "updated_at" (.str now)
    (true, aset reports rid d)

/-- The record written back by `update_report` after the preserve step. -/
def updated_record (now rid : String) (data existing : Dict) : Dict :=
  aset (aset (aset (aset (aset (standardize_report_data data)
    "id" (.str rid))
    "created_at" (dget existing "created_at" (.str now)))
    "updated_at" (.str now))
    "delivery_count" (dget existing "delivery_count" (.int 0)))
    "last_delivered" (dget existing "last_delivered" .null)

/-! ## Scheduled dispatcher (`cron_sender.py`, polling variant) -/

/-- `str.split(sep)` for a one-character separator, on the character list. -/
def splitCharAux (sep : Char) : List Char → List Char → List (List Char)
  | [], acc => [acc.reverse]
  | c :: cs, acc =>
    if c = sep then acc.reverse :: splitCharAux sep cs []
    else splitCharAux sep cs (c :: acc)

/-- `s.split(sep)` of Python for a one-character separator. -/
def pySplit (s : String) (sep : Char) : List String :=
  (splitCharAux sep s.data []).map String.mk

/-- `int(s)` on a digit string, `none` on anything `int()` would reject
(the surrounding Python catches the `ValueError` and skips the report). -/
def parseNatStrict (s : String) : Option Nat :=
  if s.data ≠ [] ∧ s.data.all Char.isDigit then
    some (s.data.foldl (fun a c => a * 10 + (c.toNat - 48)) 0)
  else none

/-- `map(int, schedule_time_str.split(':'))` unpacked into two values. -/
def parseHM (s : String) : Option (Nat × Nat) :=
  match pySplit s ':' with
  | [hs, ms] =>
    match parseNatStrict hs, parseNatStrict ms with
    | some h, some m => some (h, m)
    | _, _ => none
  | _ => none

/-- One entry of the day-bucketed delivery log
(`delivery_logs_manager.add_log_entry`). -/
structure LogEntry where
  report_id : String
  report_name : String
  status : String
  scheduled_time : String
  message : String
  error : String
deriving DecidableEq, Repr

/-- Ambient inputs of one `send_scheduled_reports` cycle: the wall clock,
the date string, the bookkeeping timestamp, and the outcome of
`DeliveryExecutor.execute` per report id. -/
structure CronEnv where
  currentMinutes : Nat
  today : String
  now : String
  send_succeeds : String → Bool
  send_error : String → String

/-- The firing test of `send_scheduled_reports`:
`time_diff <= 15 or time_diff >= (24 * 60 - 15)`. -/
def fires (currentTotal scheduledTotal : Nat) : Bool :=
  let time_diff := ((currentTotal : Int) - (scheduledTotal : Int)).natAbs
  decide (time_diff ≤ 15) || decide (time_diff ≥ 24 * 60 - 15)

/-- Distance between two minute values on the 24×60 modular clock. -/
def modDist (a b : Nat) : Nat :=
  min ((a : Int) - (b : Int)).natAbs (24 * 60 - ((a : Int) - (b : Int)).natAbs)

/-- The body of the per-report loop of `send_scheduled_reports`: evaluates one
report against the clock, sends if due, and performs the bookkeeping writes.
Returns the updated store, the delivery-log entries appended this iteration,
and whether a successful send happened. -/
def process_scheduled_report (env : CronEnv) (rid : String) (data : Dict)
    (reports : Reports) : Reports × List LogEntry × Bool :=
  if truthy (dget data "schedule_enabled" (.bool false)) then
    match parseHM (asStrD (dget data "schedule_time" (.str "09:00")) "") with
    | none => (reports, [], false)
    | some (h, m) =>
      let schedule_time_str := asStrD (dget data "schedule_time" (.str "09:00")) ""
      let report_name := asStrD (dget data "name" (.str rid)) rid
      if fires env.currentMinutes (h * 60 + m) then
        if dget data "last_sent_date" (.str "") = .str env.today then
          (reports,
           [⟨rid, report_name, "skipped", schedule_time_str,
             "Already sent today", ""⟩], false)
        else if env.send_succeeds rid then
          let receiver := asStrD (dget data "receiver" (.str "")) ""
          let success_entry : LogEntry :=
            ⟨rid, report_name, "success", schedule_time_str,
             "Successfully sent to @" ++ receiver, ""⟩
          let store1 := (increment_delivery_count reports env.now rid).2
          let data1 := aset data "last_sent_date" (.str env.today)
          let store2 := (update_report store1 env.now rid data1).2
          (store2, [success_entry], true)
        else
          (reports,
           [⟨rid, report_name, "failed", schedule_time_str, "",
             env.send_error rid⟩], false)
      else (reports, [], false)
  else (reports, [], false)

/-- The `for report_id, report_data in reports.items()` loop: the snapshot
loaded at cycle start is iterated while the bookkeeping writes thread through
the store. -/
def send_scheduled_reports_loop (env : CronEnv) :
    List (String × Dict) → Reports → Reports × List LogEntry × Nat
  | [], store => (store, [], 0)
  | (rid, data) :: rest, store =>
    let step := process_scheduled_report env rid data store
    let restOut := send_scheduled_reports_loop env rest step.1
    (restOut.1, step.2.1 ++ restOut.2.1,
     (if step.2.2 then 1 else 0) + restOut.2.2)

/-- One full `send_scheduled_reports` invocation: load the reports once and
run the loop over that snapshot. -/
def send_scheduled_reports (env : CronEnv) (reports : Reports) :
    Reports × List LogEntry × Nat :=
  send_scheduled_reports_loop env reports reports

/-- The concrete scheduled report used to exhibit the C1 bug. -/
def c1_report : Dict :=
  [("name", .str "Daily Report"), ("author", .str "alice"),
   ("receiver", .str "bob"), ("link", .str "http://x"),
   ("channel", .str ""), ("delivery_mode", .str "scheduled"),
   ("schedule_enabled", .bool true), ("schedule_time", .str "09:00"),
   ("delivery_count", .int 0), ("created_at", .str "2026-01-01T00:00:00"),
   ("status", .str "active")]

/-- Cycle environment for the C1 scenario: both cycles run on 2026-10-12 and
every send succeeds. -/
def c1_env (cur : Nat) : CronEnv :=
  { currentMinutes := cur, today := "2026-10-12",
    now := "2026-10-12T09:00:00", send_succeeds := fun _ => true,
    send_error := fun _ => "Unknown error" }

/-! ## Slack delivery module (`delivery/slack_delivery_simple.py`)

`difflib.SequenceMatcher(None, a, b).ratio()` is embedded exactly for the
string sizes in play: with no junk heuristic (autojunk only activates on
strings of 200+ characters, longer than any name or hint compared here), the
matcher repeatedly takes the leftmost longest common block and recurses on
both sides, and `ratio` is `2*M/T` for `M` total matched characters and `T`
the combined length. -/

/-- Length of the common run of two lists starting at their heads. -/
def runLen : List Char → List Char → Nat
  | a :: as, b :: bs => if a = b then runLen as bs + 1 else 0
  | _, _ => 0

/-- `find_longest_match` over whole lists: of all maximal common blocks,
the one starting earliest in `a`, then earliest in `b`; `(0, 0, 0)` when
there is no common character. -/
def bestBlock (a b : List Char) : Nat × Nat × Nat :=
  ((List.range a.length).flatMap (fun i =>
    (List.range b.length).map (fun j =>
      (i, j, runLen (a.drop i) (b.drop j))))).foldl
    (fun best c => if c.2.2 > best.2.2 then c else best) (0, 0, 0)

/-- Total matched size of `get_matching_blocks`, with a fuel argument for
termination; fuel `a.length + b.length` always suffices because each
recursive call strictly shrinks the combined length. -/
def smMatches : Nat → List Char → List Char → Nat
  | 0, _, _ => 0
  | fuel + 1, a, b =>
    match bestBlock a b with
    | (i, j, k) =>
      if k = 0 then 0
      else smMatches fuel (a.take i) (b.take j) + k +
           smMatches fuel (a.drop (i + k)) (b.drop (j + k))

/-- `max` on rationals, written with an explicit test so that concrete
instances evaluate by kernel reduction. -/
def qmax (a b : ℚ) : ℚ := if a ≤ b then b else a

/-- `SequenceMatcher(None, a, b).ratio()`. -/
def smRatio (a b : List Char) : ℚ :=
  if a.length + b.length = 0 then 1
  else mkRat (2 * (smMatches (a.length + b.length) a b : Int))
    (a.length + b.length)

/-- `s.lower()` (the names compared in this repository are ASCII). -/
def pyLower (s : String) : String := String.mk (s.data.map Char.toLower)

/-- Boolean prefix test on character lists. -/
def listIsPrefixOf : List Char → List Char → Bool
  | [], _ => true
  | _ :: _, [] => false
  | a :: as, b :: bs => a = b && listIsPrefixOf as bs

/-- Boolean contiguous-sublist test on character lists. -/
def listIsInfixOf : List Char → List Char → Bool
  | needle, [] => needle.isEmpty
  | needle, c :: rest =>
    listIsPrefixOf needle (c :: rest) || listIsInfixOf needle rest

/-- `needle in hay` of Python: contiguous substring test. -/
def pyIn (needle hay : String) : Bool := listIsInfixOf needle.data hay.data

/-- `s.strip()`. -/
def pyStrip (s : String) : String :=
  String.mk
    (((s.data.dropWhile Char.isWhitespace).reverse.dropWhile
      Char.isWhitespace).reverse)

/-- `SequenceMatcher(None, a, b).ratio()` on strings. -/
def strRatio (a b : String) : ℚ := smRatio a.data b.data

/-- One member of the Slack user directory, with the three name fields the
resolver consults. -/
structure SlackUser where
  id : String
  real_name : String
  username : String
  display_name : String
  deleted : Bool
  is_bot : Bool
deriving DecidableEq, Repr

/-- `_get_users_list`: the cached directory keeps active, non-bot members. -/
def get_users_list (members : List SlackUser) : List SlackUser :=
  members.filter (fun u => !u.deleted && !u.is_bot)

/-- The record `_find_user_by_name` returns on a hit. -/
structure MatchResult where
  user : SlackUser
  score : ℚ
  matched_field : String
deriving DecidableEq, Repr

/-- Exact test of the first pass: case-folded equality with any of
real name, username, display name. -/
def user_exact_match (name_lower : String) (u : SlackUser) : Bool :=
  name_lower = pyLower u.real_name || name_lower = pyLower u.username ||
    name_lower = pyLower u.display_name

/-- Substring test of the first pass: the input contained in any of the
three case-folded fields. -/
def user_substring_match (name_lower : String) (u : SlackUser) : Bool :=
  pyIn name_lower (pyLower u.real_name) || pyIn name_lower (pyLower u.username)
    || pyIn name_lower (pyLower u.display_name)

/-- The first `for user in users` loop of `_find_user_by_name`: a single
pass checking, per user, exact equality then substring containment. -/
def first_pass (name_lower : String) : List SlackUser → Option MatchResult
  | [] => none
  | u :: users =>
    if user_exact_match name_lower u then some ⟨u, 1, "exact_match"⟩
    else if user_substring_match name_lower u then
      some ⟨u, mkRat 9 10, "substring_match"⟩
    else first_pass name_lower users

/-- `max(scores)` of the three per-field similarity ratios. -/
def user_fuzzy_score (name_lower : String) (u : SlackUser) : ℚ :=
  qmax (strRatio name_lower (pyLower u.real_name))
    (qmax (strRatio name_lower (pyLower u.username))
      (strRatio name_lower (pyLower u.display_name)))

/-- The second `for user in users` loop: keep the best fuzzy score seen,
replacing only on `max_score > best_score and max_score > 0.8`. -/
def fuzzy_scan (name_lower : String) (acc : Option MatchResult × ℚ) :
    List SlackUser → Option MatchResult × ℚ
  | [] => acc
  | u :: users =>
    let s := user_fuzzy_score name_lower u
    if s > acc.2 ∧ s > mkRat 4 5 then
      fuzzy_scan name_lower (some ⟨u, s, "fuzzy_match"⟩, s) users
    else fuzzy_scan name_lower acc users

/-- `_find_user_by_name` over the cached directory. -/
def find_user_by_name (users : List SlackUser) (name : String) :
    Option MatchResult :=
  if users = [] then none
  else
    match first_pass (pyLower name) users with
    | some r => some r
    | none => (fuzzy_scan (pyLower name) (none, 0) users).1

/-- `_convert_name_to_mention`: mention markup on a hit, the raw name with
an `@` prefix otherwise. -/
def convert_name_to_mention (users : List SlackUser) (name : String) :
    String :=
  match find_user_by_name users name with
  | some r => "<@" ++ r.user.id ++ ">"
  | none => "@" ++ name

/-- One message of the fetched channel history. -/
structure ChannelMsg where
  ts : String
  text : String
  subtype : Option String
deriving DecidableEq, Repr

/-- The lower-cased, trimmed body the thread matcher scores against. -/
def msg_norm (m : ChannelMsg) : String := pyStrip (pyLower m.text)

/-- The `continue` guard: empty normalized text or a `channel_join`
system message. -/
def msg_skipped (m : ChannelMsg) : Bool :=
  decide (msg_norm m = "") || decide (m.subtype = some "channel_join")

/-- Similarity of the hint against one message body, with the substring
containment boost to at least 0.8. -/
def thread_score (hint_lower msg_lower : String) : ℚ :=
  let s := strRatio hint_lower msg_lower
  if pyIn hint_lower msg_lower || pyIn msg_lower hint_lower then
    qmax s (mkRat 4 5)
  else s

/-- The `for message in messages` loop of `_find_matching_thread`: keep the
strictly best-scoring non-skipped message. -/
def thread_scan (hint_lower : String) (acc : Option ChannelMsg × ℚ) :
    List ChannelMsg → Option ChannelMsg × ℚ
  | [] => acc
  | m :: rest =>
    if msg_skipped m then thread_scan hint_lower acc rest
    else
      let s := thread_score hint_lower (msg_norm m)
      if s > acc.2 then thread_scan hint_lower (some m, s) rest
      else thread_scan hint_lower acc rest

/-- The `limit` argument of the `conversations_history` fetch. -/
def conversations_history_limit : Nat := 50

/-- Python truthiness of an optional string argument. -/
def optTruthy : Option String → Bool
  | none => false
  | some s => s ≠ ""

/-- `_find_matching_thread`: `None` for a falsy hint, otherwise the
timestamp of the best-scoring history message provided its score exceeds
0.7. -/
def find_matching_thread (history : List ChannelMsg)
    (thread_content : Option String) : Option String :=
  if optTruthy thread_content = false then none
  else
    let hint_lower := pyStrip (pyLower (thread_content.getD ""))
    let best := thread_scan hint_lower (none, 0) history
    match best.1 with
    | some m => if best.2 > mkRat 7 10 then some m.ts else none
    | none => none

/-- Environment of one `send_type1_message` call: the user directory and
channel history behind the Web API, the outcome of the post/upload calls
(`.error` models a raised `SlackApiError`), whether `open(file_path)`
succeeds, the resolved channel id and the current date string. -/
structure SlackEnv where
  members : List SlackUser
  history : List ChannelMsg
  postOutcome : Except String String
  uploadOutcome : Except String String
  fileOk : Bool
  channel_id : String
  todayStr : String

/-- A `chat_postMessage` / `files_upload_v2` call actually issued. -/
structure PostCall where
  channel : String
  text : String
  thread_ts : Option String
deriving DecidableEq, Repr

/-- The dictionary either send method returns. -/
structure SendResult where
  success : Bool
  message : Option String := none
  error : Option String := none
  suggestion : Option String := none
  timestamp : Option String := none
  thread_ts : Option String := none
  channel : Option String := none
  file_id : Option String := none
deriving DecidableEq, Repr

/-- The fixed Type-1 message template shared by both send methods; the
storage block is the link for the plain variant and a fixed upload note for
the file variant. -/
def type1_message_text (users : List SlackUser)
    (date_str receiver author : String) (raw_data_link : Option String)
    (storage_line : String) : String :=
  convert_name_to_mention users receiver ++ "\n" ++
  "お世話になっております。\n" ++
  "DDAMチームの" ++ convert_name_to_mention users author ++ "でございます。\n\n" ++
  "本日分の更新が完了致しましたのでご確認お願い致します。(" ++ date_str ++ ")\n\n" ++
  (if optTruthy raw_data_link then
    "▼raw貼り付けスプシ\n" ++ raw_data_link.getD "" ++ "\n\n" else "") ++
  "▼格納先\n" ++ storage_line ++ "\n\n" ++
  "お忙しいところ恐れ入りますが、何卒よろしくお願いいたします。"

/-- The `chat_postMessage` step of `send_type1_message`: a raised
`SlackApiError` becomes a `success=False` result, a normal return becomes the
thread-reply or new-message success dictionary. -/
def post_message (env : SlackEnv) (message : String)
    (target : Option String) : SendResult × List PostCall :=
  match env.postOutcome with
  | .error e =>
    ({ success := false, error := some ("Slack API error: " ++ e) },
     [⟨env.channel_id, message, target⟩])
  | .ok ts =>
    match target with
    | some t =>
      ({ success := true,
         message := some "Message delivered successfully in thread",
         timestamp := some ts, channel := some env.channel_id,
         thread_ts := some t }, [⟨env.channel_id, message, target⟩])
    | none =>
      ({ success := true,
         message := some "New message created successfully",
         timestamp := some ts, channel := some env.channel_id },
       [⟨env.channel_id, message, target⟩])

/-- `send_type1_message`.  Returns the result dictionary together with the
list of channel posts actually attempted. -/
def send_type1_message (env : SlackEnv)
    (file_link author receiver : String)
    (thread_content thread_ts custom_date raw_data_link : Option String) :
    SendResult × List PostCall :=
  let users := get_users_list env.members
  let date_str :=
    if optTruthy custom_date then custom_date.getD "" else env.todayStr
  let message :=
    type1_message_text users date_str receiver author raw_data_link file_link
  if optTruthy thread_ts then post_message env message thread_ts
  else if optTruthy thread_content then
    match find_matching_thread env.history thread_content with
    | none =>
      ({ success := false,
         error := some "Thread content was specified but no matching thread found. Please check the thread content or remove --thread-content to create a new message.",
         suggestion := some "Remove --thread-content parameter to create a new message, or verify the thread content matches an existing message" },
       [])
    | some ts => post_message env message (some ts)
  else post_message env message none

/-- The `open` + `files_upload_v2` step of `send_type1_message_with_file`:
a missing file becomes the `FileNotFoundError` result, a raised
`SlackApiError` becomes a `success=False` result, otherwise the upload
success dictionary. -/
def upload_file (env : SlackEnv) (file_path message : String)
    (target : Option String) : SendResult × List PostCall :=
  if env.fileOk = false then
    ({ success := false, error := some ("File not found: " ++ file_path) },
     ([] : List PostCall))
  else
    match env.uploadOutcome with
    | .error e =>
      ({ success := false, error := some ("Slack API error: " ++ e) },
       [⟨env.channel_id, message, target⟩])
    | .ok fid =>
      match target with
      | some t =>
        ({ success := true,
           message := some "File uploaded to thread successfully",
           file_id := some fid, thread_ts := some t,
           channel := some env.channel_id },
         [⟨env.channel_id, message, target⟩])
      | none =>
        ({ success := true, message := some "File uploaded successfully",
           file_id := some fid, channel := some env.channel_id },
         [⟨env.channel_id, message, target⟩])

/-- `send_type1_message_with_file`. -/
def send_type1_message_with_file (env : SlackEnv)
    (file_path author receiver : String)
    (thread_content thread_ts custom_date raw_data_link : Option String) :
    SendResult × List PostCall :=
  let users := get_users_list env.members
  let date_str :=
    if optTruthy custom_date then custom_date.getD "" else env.todayStr
  let message := type1_message_text users date_str receiver author
    raw_data_link "ファイルをアップロードしました（下記参照）"
  if optTruthy thread_ts then upload_file env file_path message thread_ts
  else if optTruthy thread_content then
    match find_matching_thread env.history thread_content with
    | none =>
      ({ success := false,
         error := some "Could not find thread matching the provided content",
         suggestion := some "Remove --thread-content parameter to create a new message, or verify the thread content matches an existing message" },
       [])
    | some ts => upload_file env file_path message (some ts)
  else upload_file env file_path message none

/-! ## Automatic dispatcher (`app/enhanced_automatic_delivery_manager.py`)

JST datetimes are modelled as day/hour/minute/second quadruples; the
`isoformat` rendering of a datetime is not modelled, the datetime value
itself is stored wherever the Python code stores the rendered string, since
no verified claim inspects the rendering. -/

/-- A JST instant as `datetime.combine(today, time)` produces it. -/
structure JstTime where
  day : Nat
  hour : Nat
  minute : Nat
  second : Nat
deriving DecidableEq, Repr

/-- Seconds since the (abstract) epoch, for window comparisons. -/
def JstTime.totalSeconds (t : JstTime) : Nat :=
  ((t.day * 24 + t.hour) * 60 + t.minute) * 60 + t.second

/-- Zero-padded two-digit rendering of a value below 100. -/
def twoDigits (n : Nat) : String :=
  String.mk [Nat.digitChar (n / 10), Nat.digitChar (n % 10)]

/-- `t.strftime('%H:%M')`. -/
def JstTime.hmStr (t : JstTime) : String :=
  twoDigits t.hour ++ ":" ++ twoDigits t.minute

/-- One `strptime` numeric field: one or two digits inside `[lo, hi]`. -/
def strpField (s : String) (lo hi : Nat) : Option Nat :=
  if s.data ≠ [] ∧ s.data.length ≤ 2 ∧ s.data.all Char.isDigit then
    let v := s.data.foldl (fun a c => a * 10 + (c.toNat - 48)) 0
    if lo ≤ v ∧ v ≤ hi then some v else none
  else none

/-- `strptime(s, '%H:%M')`, to (hour, minute, second). -/
def parse_fmt_HM (s : String) : Option (Nat × Nat × Nat) :=
  match pySplit s ':' with
  | [hs, ms] =>
    match strpField hs 0 23, strpField ms 0 59 with
    | some h, some m => some (h, m, 0)
    | _, _ => none
  | _ => none

/-- `strptime(s, '%H:%M:%S')`. -/
def parse_fmt_HMS (s : String) : Option (Nat × Nat × Nat) :=
  match pySplit s ':' with
  | [hs, ms, ss] =>
    match strpField hs 0 23, strpField ms 0 59, strpField ss 0 61 with
    | some h, some m, some sec => some (h, m, sec)
    | _, _, _ => none
  | _ => none

/-- The `%p` field: `false` for AM, `true` for PM. -/
def parse_ampm (s : String) : Option Bool :=
  if s = "AM" ∨ s = "am" then some false
  else if s = "PM" ∨ s = "pm" then some true
  else none

/-- `strptime(s, '%I:%M %p')`. -/
def parse_fmt_IMp (s : String) : Option (Nat × Nat × Nat) :=
  match pySplit s ' ' with
  | [t, p] =>
    match pySplit t ':' with
    | [hs, ms] =>
      match strpField hs 1 12, strpField ms 0 59, parse_ampm p with
      | some h, some m, some pm =>
        some ((h % 12) + (if pm then 12 else 0), m, 0)
      | _, _, _ => none
    | _ => none
  | _ => none

/-- `strptime(s, '%I:%M:%S %p')`. -/
def parse_fmt_IMSp (s : String) : Option (Nat × Nat × Nat) :=
  match pySplit s ' ' with
  | [t, p] =>
    match pySplit t ':' with
    | [hs, ms, ss] =>
      match strpField hs 1 12, strpField ms 0 59, strpField ss 0 61,
          parse_ampm p with
      | some h, some m, some sec, some pm =>
        some ((h % 12) + (if pm then 12 else 0), m, sec)
      | _, _, _, _ => none
    | _ => none
  | _ => none

/-- `parse_scheduled_time`: strip, try the four accepted formats in order,
and pin the parsed clock time on today's date; `None` on anything
unparseable. -/
def parse_scheduled_time (day : Nat) (time_str : String) : Option JstTime :=
  if pyStrip time_str = "" then none
  else
    match ((parse_fmt_HM (pyStrip time_str)).orElse
        (fun _ => (parse_fmt_HMS (pyStrip time_str)).orElse
        (fun _ => (parse_fmt_IMp (pyStrip time_str)).orElse
        (fun _ => parse_fmt_IMSp (pyStrip time_str))))) with
    | some hms => some ⟨day, hms.1, hms.2.1, hms.2.2⟩
    | none => none

/-- `should_check_now`: inside `[deadline − 5 minutes, deadline]`
inclusive. -/
def should_check_now (current scheduled : JstTime) : Bool :=
  decide ((scheduled.totalSeconds : Int) - 5 * 60 ≤ current.totalSeconds ∧
    (current.totalSeconds : Int) ≤ scheduled.totalSeconds)

/-- The result dictionary of `deliver_report`. -/
structure DeliverResult where
  success : Bool
  error : Option String := none
  delivery_method : Option String := none
  sendResult : Option SendResult := none
deriving DecidableEq, Repr

/-- One value of the per-day dedup map in `automatic_delivery_log.json`. -/
structure DeliveredRec where
  delivered_at : String
  scheduled_time : Option JstTime
  delivery_info : DeliverResult
  report_name : String
  deadline_time : Option String
deriving DecidableEq, Repr

/-- One day bucket of the automatic delivery log, keyed by dedup key. -/
abbrev DayBucket := List (String × DeliveredRec)

/-- The automatic delivery log: date string → day bucket. -/
abbrev AutoLog := List (String × DayBucket)

/-- The dedup key: `report_name + "_" + HH:MM` when a deadline is known,
the bare report name in the legacy fallback. -/
def dedup_key (report_name : String) (sched : Option JstTime) : String :=
  match sched with
  | some t => report_name ++ "_" ++ t.hmStr
  | none => report_name

/-- `is_already_delivered_today`. -/
def is_already_delivered_today (log : AutoLog) (today : String)
    (report_name : String) (sched : Option JstTime) : Bool :=
  (alookup ((alookup log today).getD []) (dedup_key report_name sched)).isSome

/-- The mutable state the automatic dispatcher threads through GitHub
storage: the dedup log and the main delivery log. -/
structure AutoState where
  autoLog : AutoLog
  mainLogs : List LogEntry
deriving DecidableEq, Repr

/-- One row read from the status sheet (`get_status_reports`). -/
structure SheetRow where
  task_id : String
  status : String
  delivery_time : String
  primary_author : String
  secondary_confirm : String
  deliverer : String
deriving DecidableEq, Repr

/-- The arguments `deliver_report` forwards to
`SlackDeliverySimple.send_type1_message`. -/
structure AutoSendArgs where
  file_link : String
  author : String
  receiver : String
  thread_content : Option String
  thread_ts : Option String
  raw_data_link : Option String
deriving DecidableEq, Repr

/-- Ambient inputs of one automatic-delivery cycle: the JST clock, the date
string, the bookkeeping timestamp, the underlying Slack send call, the
default channel environment variable, and whether the Slack client imports
and constructs. -/
structure AutoEnv where
  current : JstTime
  todayStr : String
  nowIso : String
  send : AutoSendArgs → SendResult
  default_channel : Option String
  slack_init_ok : Bool
  status_url_configured : Bool

/-- `', '.join(parts)`. -/
def joinComma : List String → String
  | [] => ""
  | [x] => x
  | x :: xs => x ++ ", " ++ joinComma xs

/-- An optional argument passed as `value if value else None`. -/
def optOfStr (s : String) : Option String :=
  if s = "" then none else some s

/-- `mark_as_delivered`: write the dedup entry for the key under today's
bucket and mirror a `success`/`failed` entry into the main delivery log. -/
def mark_as_delivered (st : AutoState) (env : AutoEnv)
    (report_name : String) (delivery_info : DeliverResult)
    (sched : Option JstTime) : AutoState :=
  let key := dedup_key report_name sched
  let bucket := (alookup st.autoLog env.todayStr).getD []
  let entry : DeliveredRec :=
    ⟨env.nowIso, sched, delivery_info, report_name, sched.map JstTime.hmStr⟩
  let log1 := aset st.autoLog env.todayStr (aset bucket key entry)
  let ok := delivery_info.success = true ∨
    delivery_info.delivery_method = some "manual_test"
  let status := if ok then "success" else "failed"
  let msg := if ok then " Automatic delivery (Task ID: " ++ report_name ++ ")"
    else " Automatic delivery failed: " ++
      (delivery_info.error.getD "Unknown error")
  let time_str := match sched with | some t => t.hmStr | none => "Unknown"
  ⟨log1, st.mainLogs ++ [⟨key, report_name, status, time_str, msg, ""⟩]⟩

/-- `deliver_report`: build mentions from the sheet row and the report
configuration, resolve the target channel, call the Slack send — and return
`success=True` unconditionally once the call was made, regardless of the
send result (the composed courtesy message is not modelled; no claim
inspects it). -/
def deliver_report (env : AutoEnv) (task_name : String)
    (report_config : Dict) (row : SheetRow) : DeliverResult :=
  let configured_author := pyStrip (asStrD (dget report_config "author" (.str "")) "")
  let configured_receiver := pyStrip (asStrD (dget report_config "receiver" (.str "")) "")
  let link := asStrD (dget report_config "link" (.str "")) ""
  let raw_data_link := asStrD (dget report_config "raw_data_link" (.str "")) ""
  let channel := asStrD (dget report_config "channel" (.str "")) ""
  let thread_content := asStrD (dget report_config "thread_content" (.str "")) ""
  let thread_ts := asStrD (dget report_config "thread_ts" (.str "")) ""
  let sheet_authors :=
    (if row.primary_author ≠ "" then [pyStrip row.primary_author] else []) ++
    (if row.secondary_confirm ≠ "" then [pyStrip row.secondary_confirm]
     else []) ++
    (if row.deliverer ≠ "" then [pyStrip row.deliverer] else [])
  let author_mentions := sheet_authors ++
    (if configured_author ≠ "" then [configured_author] else [])
  let receiver_mentions :=
    if configured_receiver ≠ "" then [configured_receiver] else []
  let target_channel :=
    if channel ≠ "" then channel else env.default_channel.getD ""
  if target_channel = "" then
    { success := false, error := some "No channel configured" }
  else if env.slack_init_ok = false then
    { success := false,
      error := some "Could not initialize SlackDeliverySimple" }
  else
    let authors :=
      if author_mentions ≠ [] then joinComma author_mentions else "Unknown"
    let receivers :=
      if receiver_mentions ≠ [] then joinComma receiver_mentions
      else "Unknown"
    let result := env.send ⟨link, authors, receivers, optOfStr thread_content,
      optOfStr thread_ts, optOfStr raw_data_link⟩
    { success := true, sendResult := some result }

/-- One result row of `process_automatic_deliveries`. -/
structure AutoResult where
  task_name : String
  report_id : String
  status : String
  current_status : Option String := none
  scheduled_time : Option JstTime := none
  delivery_result : Option DeliverResult := none
deriving DecidableEq, Repr

/-- The body of the `for report_data in reports_data` loop: match the row to
a configured automatic report by exact `automatic_task_id` equality, parse
the deadline, apply the dedup and window guards, require the completed
status, then deliver and — on a `success` delivery result — mark the dedup
key. -/
def process_row (env : AutoEnv) (automatic_reports : List (String × Dict))
    (st : AutoState) (row : SheetRow) : AutoState × List AutoResult :=
  match automatic_reports.find? (fun p =>
      decide (asStrD (dget p.2 "automatic_task_id" (.str "")) "" =
        row.task_id)) with
  | none => (st, [])
  | some (rid, report) =>
    match parse_scheduled_time env.current.day row.delivery_time with
    | none => (st, [])
    | some sched =>
      if is_already_delivered_today st.autoLog env.todayStr row.task_id
          (some sched) then (st, [])
      else if should_check_now env.current sched = false then (st, [])
      else if row.status ≠ "完了" then
        (st, [{ task_name := row.task_id, report_id := rid,
                status := "not_ready", current_status := some row.status,
                scheduled_time := some sched }])
      else
        let delivery_result := deliver_report env row.task_id report row
        let st1 := if delivery_result.success then
          mark_as_delivered st env row.task_id delivery_result (some sched)
          else st
        (st1, [{ task_name := row.task_id, report_id := rid,
                 status := if delivery_result.success then "delivered"
                   else "failed",
                 scheduled_time := some sched,
                 delivery_result := some delivery_result }])

/-- The row loop, threading the stored state. -/
def process_rows (env : AutoEnv) (automatic_reports : List (String × Dict))
    (st : AutoState) : List SheetRow → AutoState × List AutoResult
  | [] => (st, [])
  | row :: rest =>
    let step := process_row env automatic_reports st row
    let restOut := process_rows env automatic_reports step.1 rest
    (restOut.1, step.2 ++ restOut.2)

/-- `process_automatic_deliveries`: kill-switch first, then filter the
reports to automatic mode, then the row loop. -/
def process_automatic_deliveries (env : AutoEnv)
    (settings_enabled : Bool) (reports : Reports) (rows : List SheetRow)
    (st : AutoState) : AutoState × List AutoResult :=
  if settings_enabled = false then (st, [])
  else
    let automatic_reports := reports.filter (fun p =>
      decide (alookup p.2 "delivery_mode" = some (.str "automatic")))
    if automatic_reports = [] then (st, [])
    else if env.status_url_configured = false then (st, [])
    else process_rows env automatic_reports st rows

/-- The automatic-cycle environment of the C2 failing input: the underlying
Slack send fails with an API error. -/
def c2_env : AutoEnv :=
  { current := ⟨20000, 17, 27, 0⟩, todayStr := "2026-10-12",
    nowIso := "2026-10-12T17:27:00",
    send := fun _ =>
      { success := false,
        error := some "Slack API error: channel_not_found" },
    default_channel := some "C999", slack_init_ok := true,
    status_url_configured := true }

/-- The automatic report configuration of the C2 failing input. -/
def c2_report : Dict :=
  [("delivery_mode", .str "automatic"),
   ("automatic_task_id", .str "T-100"), ("author", .str "alice"),
   ("receiver", .str "bob"), ("link", .str "http://x"),
   ("raw_data_link", .str ""), ("channel", .str ""),
   ("thread_content", .str ""), ("thread_ts", .null)]

/-! ## Theorems -/

theorem alookup_aset {α : Type} (l : List (String × α)) (k k' : String) (v : α) :
    alookup (aset l k v) k' = if k' = k then some v else alookup l k' := by
  induction l with
  | nil => simp [aset, alookup]
  | cons p rest ih =>
    obtain ⟨pk, pv⟩ := p
    by_cases hpk : pk = k
    · subst hpk
      by_cases hk' : k' = pk <;> simp [aset, alookup, hk']
    · by_cases hk' : k' = pk
      · subst hk'
        simp [aset, alookup, hpk, Ne.symm hpk]
      · simp [aset, alookup, hpk, hk', ih]

theorem alookup_eq_none_iff {α : Type} (l : List (String × α)) (k : String) :
    alookup l k = none ↔ k ∉ l.map Prod.fst := by
  induction l with
  | nil => simp [alookup]
  | cons p rest ih =>
    obtain ⟨pk, pv⟩ := p
    by_cases hk : k = pk <;> simp [alookup, hk, ih]

theorem standardize_drops_nonschema (data : Dict) (k : String)
    (h : k ∉ standard_field_keys) :
    alookup (standardize_report_data data) k = none := by
  rw [alookup_eq_none_iff]
  intro hmem
  apply h
  simp only [standardize_report_data, List.map_cons, List.map_nil,
    List.mem_cons, List.not_mem_nil, or_false] at hmem
  simp only [standard_field_keys, List.mem_cons, List.not_mem_nil, or_false]
  exact hmem

/-- C9: `update_report` rewrites the stored record through the fixed standard
schema: `id`, `created_at`, `delivery_count` and `last_delivered` are
preserved from the existing record, `updated_at` is refreshed to the current
timestamp, and every field outside the schema — in particular
`last_sent_date`, the scheduled dispatcher's daily dedup key — is silently
dropped from the persisted record. -/
theorem c9_update_report_standard_schema
    (reports : Reports) (now rid : String) (data existing : Dict)
    (hex : alookup reports rid = some existing) :
    (update_report reports now rid data).1 = true ∧
    ∃ rec, alookup (update_report reports now rid data).2 rid = some rec ∧
      alookup rec "id" = some (.str rid) ∧
      alookup rec "created_at" = some (dget existing "created_at" (.str now)) ∧
      alookup rec "updated_at" = some (.str now) ∧
      alookup rec "delivery_count" =
        some (dget existing "delivery_count" (.int 0)) ∧
      alookup rec "last_delivered" =
        some (dget existing "last_delivered" .null) ∧
      alookup rec "last_sent_date" = none ∧
      (∀ k, k ∉ standard_field_keys → alookup rec k = none) := by
  have h1 : update_report reports now rid data =
      (true, aset reports rid (updated_record now rid data existing)) := by
    unfold update_report updated_record
    rw [hex]
  rw [h1]
  refine ⟨rfl, updated_record now rid data existing, ?_, rfl, rfl, rfl, rfl,
    rfl, rfl, ?_⟩
  · rw [alookup_aset, if_pos rfl]
  · intro k hk
    have hne : ∀ s ∈ standard_field_keys, k ≠ s := by
      intro s hs he
      exact hk (he ▸ hs)
    simp only [standard_field_keys, List.mem_cons, List.not_mem_nil,
      or_false, forall_eq_or_imp, forall_eq] at hne
    obtain ⟨h_id, h_name, h_author, h_receiver, h_link, h_raw, h_channel,
      h_tc, h_ts, h_date, h_dm, h_se, h_st, h_ati, h_ca, h_ua, h_ld, h_dc,
      h_status⟩ := hne
    unfold updated_record
    rw [alookup_aset, if_neg h_ld, alookup_aset, if_neg h_dc,
        alookup_aset, if_neg h_ua, alookup_aset, if_neg h_ca,
        alookup_aset, if_neg h_id]
    exact standardize_drops_nonschema data k hk

/-- Witness for C9 on a concrete store. -/
theorem c9_update_report_standard_schema_witness :
    alookup [("RPT_00001",
        ([("created_at", Value.str "2026-01-01"),
          ("delivery_count", Value.int 3)] : Dict))] "RPT_00001" =
      some [("created_at", Value.str "2026-01-01"),
            ("delivery_count", Value.int 3)] ∧
    (update_report [("RPT_00001",
        [("created_at", Value.str "2026-01-01"),
         ("delivery_count", Value.int 3)])] "2026-10-12T09:00:00" "RPT_00001"
        [("name", Value.str "Daily"),
         ("last_sent_date", Value.str "2026-10-12")]).1 = true := by
  refine ⟨by rfl, ?_⟩
  exact (c9_update_report_standard_schema _ "2026-10-12T09:00:00" "RPT_00001"
    [("name", Value.str "Daily"), ("last_sent_date", Value.str "2026-10-12")]
    _ (by rfl)).1

/-- C8: with a well-formed parsed HH:MM schedule, the polling dispatcher
fires exactly when the 24×60 modular-clock distance between the current and
the scheduled minute is at most 15 — equivalently, when the raw absolute
difference is ≤ 15 or ≥ 1425 — and outside that window the report is neither
sent nor logged in that cycle. -/
theorem c8_firing_tolerance (env : CronEnv) (rid : String) (data : Dict)
    (reports : Reports) (h m : Nat) (hh : h < 24) (hm : m < 60)
    (hcur : env.currentMinutes < 1440)
    (hparse : parseHM (asStrD (dget data "schedule_time" (.str "09:00")) "") =
      some (h, m)) :
    (fires env.currentMinutes (h * 60 + m) = true ↔
       modDist env.currentMinutes (h * 60 + m) ≤ 15) ∧
    (fires env.currentMinutes (h * 60 + m) = true ↔
       (((env.currentMinutes : Int) - ((h * 60 + m : Nat) : Int)).natAbs ≤ 15 ∨
        ((env.currentMinutes : Int) - ((h * 60 + m : Nat) : Int)).natAbs ≥ 1425)) ∧
    (fires env.currentMinutes (h * 60 + m) = false →
       process_scheduled_report env rid data reports = (reports, [], false)) := by
  refine ⟨?_, ?_, ?_⟩
  · simp only [fires, modDist, Bool.or_eq_true, decide_eq_true_eq]
    omega
  · simp only [fires, Bool.or_eq_true, decide_eq_true_eq]
  · intro hf
    by_cases he : truthy (dget data "schedule_enabled" (.bool false))
    · unfold process_scheduled_report
      rw [if_pos he, hparse]
      simp [hf]
    · unfold process_scheduled_report
      rw [if_neg he]

/-- Witness for C8: schedule 09:00, clock 09:10 (inside the window). -/
theorem c8_firing_tolerance_witness :
    (9 : Nat) < 24 ∧ (0 : Nat) < 60 ∧ (550 : Nat) < 1440 ∧
    parseHM (asStrD (dget [("schedule_time", Value.str "09:00")]
      "schedule_time" (.str "09:00")) "") = some (9, 0) ∧
    (fires 550 (9 * 60 + 0) = true ↔ modDist 550 (9 * 60 + 0) ≤ 15) := by
  refine ⟨by decide, by decide, by decide, by decide, ?_⟩
  exact (c8_firing_tolerance
    ⟨550, "2026-10-12", "2026-10-12T09:10:00", fun _ => true, fun _ => ""⟩
    "RPT_00001" [("schedule_time", Value.str "09:00")] [] 9 0
    (by decide) (by decide) (by decide) (by decide)).1

/-- C1 (failing input): a report scheduled for 09:00 is processed by two
cycles of the same day, at 08:50 and 09:10, both inside the 15-minute
tolerance and both with a successful send.  The first cycle logs `success`
and persists the record — but `update_report` drops `last_sent_date`, so the
second cycle logs `success` again instead of `skipped`, and `delivery_count`
is incremented twice in one calendar day, contradicting the at-most-once
claim. -/
theorem c1_second_cycle_sends_again :
    (send_scheduled_reports (c1_env 530)
        [("RPT_00001", c1_report)]).2.1.map LogEntry.status = ["success"] ∧
    (send_scheduled_reports (c1_env 550)
        (send_scheduled_reports (c1_env 530)
          [("RPT_00001", c1_report)]).1).2.1.map LogEntry.status =
      ["success"] ∧
    (alookup (send_scheduled_reports (c1_env 550)
        (send_scheduled_reports (c1_env 530)
          [("RPT_00001", c1_report)]).1).1 "RPT_00001").map
      (fun rec => dget rec "delivery_count" .null) = some (.int 2) ∧
    (alookup (send_scheduled_reports (c1_env 550)
        (send_scheduled_reports (c1_env 530)
          [("RPT_00001", c1_report)]).1).1 "RPT_00001").map
      (fun rec => alookup rec "last_sent_date") = some none := by
  decide

theorem smRatio_nonneg (a b : List Char) : 0 ≤ smRatio a b := by
  unfold smRatio
  split
  · norm_num
  · rw [Rat.mkRat_eq_div]
    positivity

theorem qmax_eq_max (a b : ℚ) : qmax a b = max a b := by
  rw [qmax, max_def]

theorem user_fuzzy_score_nonneg (nl : String) (u : SlackUser) :
    0 ≤ user_fuzzy_score nl u := by
  unfold user_fuzzy_score strRatio
  rw [qmax_eq_max, qmax_eq_max]
  exact le_max_of_le_left (smRatio_nonneg _ _)

theorem first_pass_eq_some (nl : String) (users : List SlackUser)
    (r : MatchResult) (h : first_pass nl users = some r) :
    ∃ pre post, users = pre ++ r.user :: post ∧
      (∀ u ∈ pre, user_exact_match nl u = false ∧
        user_substring_match nl u = false) ∧
      ((user_exact_match nl r.user = true ∧ r.score = 1 ∧
          r.matched_field = "exact_match") ∨
       (user_exact_match nl r.user = false ∧
          user_substring_match nl r.user = true ∧ r.score = mkRat 9 10 ∧
          r.matched_field = "substring_match")) := by
  induction users with
  | nil => simp [first_pass] at h
  | cons u us ih =>
    by_cases he : user_exact_match nl u = true
    · simp only [first_pass, he, if_true] at h
      obtain rfl := (Option.some_inj.mp h).symm
      exact ⟨[], us, rfl, by simp, Or.inl ⟨he, rfl, rfl⟩⟩
    · by_cases hs : user_substring_match nl u = true
      · simp only [first_pass, he, hs, if_true, if_false] at h
        obtain rfl := (Option.some_inj.mp h).symm
        exact ⟨[], us, rfl, by simp,
          Or.inr ⟨Bool.eq_false_iff.mpr (by simpa using he), hs, rfl, rfl⟩⟩
      · simp only [first_pass, he, hs, if_false] at h
        obtain ⟨pre, post, hsplit, hpre, hcase⟩ := ih h
        refine ⟨u :: pre, post, by simp [hsplit], ?_, hcase⟩
        intro v hv
        rcases List.mem_cons.mp hv with rfl | hv
        · exact ⟨Bool.eq_false_iff.mpr (by simpa using he),
            Bool.eq_false_iff.mpr (by simpa using hs)⟩
        · exact hpre v hv

theorem first_pass_eq_none (nl : String) (users : List SlackUser)
    (h : first_pass nl users = none) :
    ∀ u ∈ users, user_exact_match nl u = false ∧
      user_substring_match nl u = false := by
  induction users with
  | nil => simp
  | cons u us ih =>
    by_cases he : user_exact_match nl u = true
    · simp [first_pass, he] at h
    · by_cases hs : user_substring_match nl u = true
      · simp [first_pass, he, hs] at h
      · simp only [first_pass, he, hs, if_false] at h
        intro v hv
        rcases List.mem_cons.mp hv with rfl | hv
        · exact ⟨Bool.eq_false_iff.mpr (by simpa using he),
            Bool.eq_false_iff.mpr (by simpa using hs)⟩
        · exact ih h v hv

theorem fuzzy_scan_eq_some (nl : String) :
    ∀ (users : List SlackUser) (a : Option MatchResult) (b : ℚ)
      (r : MatchResult) (s' : ℚ),
      fuzzy_scan nl (a, b) users = (some r, s') →
      (a = some r ∧ s' = b ∧
         ∀ u ∈ users, user_fuzzy_score nl u ≤ b ∨
           user_fuzzy_score nl u ≤ mkRat 4 5) ∨
      (∃ pre post, users = pre ++ r.user :: post ∧
         r.score = user_fuzzy_score nl r.user ∧
         r.matched_field = "fuzzy_match" ∧ s' = r.score ∧
         r.score > b ∧ r.score > mkRat 4 5 ∧
         (∀ v ∈ pre, user_fuzzy_score nl v < r.score) ∧
         (∀ v ∈ post, user_fuzzy_score nl v ≤ r.score ∨
           user_fuzzy_score nl v ≤ mkRat 4 5)) := by
  intro users
  induction users with
  | nil =>
    intro a b r s' h
    simp only [fuzzy_scan] at h
    obtain ⟨h1, h2⟩ := Prod.mk.injEq .. ▸ h
    exact Or.inl ⟨by simp_all, by simp_all, by simp⟩
  | cons u us ih =>
    intro a b r s' h
    by_cases hc : user_fuzzy_score nl u > b ∧ user_fuzzy_score nl u > mkRat 4 5
    · simp only [fuzzy_scan, hc, if_true] at h
      rcases ih (some ⟨u, user_fuzzy_score nl u, "fuzzy_match"⟩)
        (user_fuzzy_score nl u) r s' h with ⟨ha, hs', hall⟩ | hr
      · obtain rfl := Option.some_inj.mp ha
        refine Or.inr ⟨[], us, rfl, rfl, rfl, hs', hc.1, hc.2, by simp, ?_⟩
        intro v hv
        exact hall v hv
      · obtain ⟨pre, post, hsplit, hscore, hfield, hs', hgt, hgt45, hpre,
          hpost⟩ := hr
        refine Or.inr ⟨u :: pre, post, by simp [hsplit], hscore, hfield, hs',
          lt_trans hc.1 hgt, hgt45, ?_, hpost⟩
        intro v hv
        rcases List.mem_cons.mp hv with rfl | hv
        · exact hgt
        · exact hpre v hv
    · simp only [fuzzy_scan, hc, if_false] at h
      rcases ih a b r s' h with ⟨ha, hs', hall⟩ | hr
      · refine Or.inl ⟨ha, hs', ?_⟩
        intro v hv
        rcases List.mem_cons.mp hv with rfl | hv
        · by_cases hb : user_fuzzy_score nl v ≤ b
          · exact Or.inl hb
          · push_neg at hc hb
            exact Or.inr (hc hb)
        · exact hall v hv
      · obtain ⟨pre, post, hsplit, hscore, hfield, hs', hgt, hgt45, hpre,
          hpost⟩ := hr
        refine Or.inr ⟨u :: pre, post, by simp [hsplit], hscore, hfield, hs',
          hgt, hgt45, ?_, hpost⟩
        intro v hv
        rcases List.mem_cons.mp hv with rfl | hv
        · by_cases hb : user_fuzzy_score nl v ≤ b
          · exact lt_of_le_of_lt hb hgt
          · push_neg at hc hb
            exact lt_of_le_of_lt (hc hb) hgt45
        · exact hpre v hv

theorem fuzzy_scan_eq_none (nl : String) :
    ∀ (users : List SlackUser) (a : Option MatchResult) (b : ℚ) (s' : ℚ),
      fuzzy_scan nl (a, b) users = (none, s') →
      a = none ∧ s' = b ∧
        ∀ u ∈ users, user_fuzzy_score nl u ≤ b ∨
          user_fuzzy_score nl u ≤ mkRat 4 5 := by
  intro users
  induction users with
  | nil =>
    intro a b s' h
    simp only [fuzzy_scan] at h
    exact ⟨by simp_all, by simp_all, by simp⟩
  | cons u us ih =>
    intro a b s' h
    by_cases hc : user_fuzzy_score nl u > b ∧ user_fuzzy_score nl u > mkRat 4 5
    · simp only [fuzzy_scan, hc, if_true] at h
      obtain ⟨ha, _, _⟩ := ih _ _ _ h
      exact absurd ha (by simp)
    · simp only [fuzzy_scan, hc, if_false] at h
      obtain ⟨ha, hs', hall⟩ := ih a b s' h
      refine ⟨ha, hs', ?_⟩
      intro v hv
      rcases List.mem_cons.mp hv with rfl | hv
      · by_cases hb : user_fuzzy_score nl v ≤ b
        · exact Or.inl hb
        · push_neg at hc hb
          exact Or.inr (hc hb)
      · exact hall v hv

/-- C4 (counterexample): directory `[Bobby, bob]` and input `bob`.  The
case-folded input equals the second entry's handle, so the claim demands
confidence 1.0 with an exact matchKind — but the single combined pass stops
at the first entry, whose real name merely contains the input, and returns
confidence 0.9 with a substring matchKind. -/
theorem c4_earlier_substring_shadows_exact :
    (∃ u ∈ get_users_list
        [⟨"U1", "Bobby", "x1", "", false, false⟩,
         ⟨"U2", "Carol", "bob", "", false, false⟩],
       pyLower "bob" = pyLower u.username) ∧
    (find_user_by_name (get_users_list
        [⟨"U1", "Bobby", "x1", "", false, false⟩,
         ⟨"U2", "Carol", "bob", "", false, false⟩]) "bob").map
      MatchResult.score = some (mkRat 9 10) ∧
    (find_user_by_name (get_users_list
        [⟨"U1", "Bobby", "x1", "", false, false⟩,
         ⟨"U2", "Carol", "bob", "", false, false⟩]) "bob").map
      MatchResult.matched_field = some "substring_match" := by
  decide

/-- C4 (amended): the resolver makes a single combined pass over the
directory in order, testing each entry for case-folded exact equality
(confidence 1.0) and then substring containment (confidence 0.9) before
moving on, so the first entry matching either way wins — an earlier entry's
substring match takes precedence over a later entry's exact match.  Only
when no entry passes either test does the fuzzy pass run, returning the
highest per-entry similarity as confidence provided it strictly exceeds 0.8;
when nothing clears 0.8 resolution fails and the caller renders the raw name
`@name` while delivery proceeds. -/
theorem c4_resolver_characterization (users : List SlackUser)
    (name : String) :
    (∀ r, find_user_by_name users name = some r →
      (r.matched_field = "exact_match" ∨ r.matched_field = "substring_match"
        ∨ r.matched_field = "fuzzy_match") ∧
      (r.matched_field = "exact_match" →
        r.score = 1 ∧ user_exact_match (pyLower name) r.user = true ∧
        ∃ pre post, users = pre ++ r.user :: post ∧
          ∀ v ∈ pre, user_exact_match (pyLower name) v = false ∧
            user_substring_match (pyLower name) v = false) ∧
      (r.matched_field = "substring_match" →
        r.score = mkRat 9 10 ∧ user_substring_match (pyLower name) r.user = true ∧
        user_exact_match (pyLower name) r.user = false ∧
        ∃ pre post, users = pre ++ r.user :: post ∧
          ∀ v ∈ pre, user_exact_match (pyLower name) v = false ∧
            user_substring_match (pyLower name) v = false) ∧
      (r.matched_field = "fuzzy_match" →
        r.score = user_fuzzy_score (pyLower name) r.user ∧ r.score > mkRat 4 5 ∧
        (∀ u ∈ users, user_fuzzy_score (pyLower name) u ≤ r.score) ∧
        (∀ u ∈ users, user_exact_match (pyLower name) u = false ∧
          user_substring_match (pyLower name) u = false)) ∧
      convert_name_to_mention users name = "<@" ++ r.user.id ++ ">") ∧
    (find_user_by_name users name = none →
      (∀ u ∈ users, user_exact_match (pyLower name) u = false ∧
        user_substring_match (pyLower name) u = false ∧
        user_fuzzy_score (pyLower name) u ≤ mkRat 4 5) ∧
      convert_name_to_mention users name = "@" ++ name) := by
  constructor
  · intro r h
    have hconv : convert_name_to_mention users name =
        "<@" ++ r.user.id ++ ">" := by
      unfold convert_name_to_mention
      rw [h]
    by_cases hemp : users = []
    · subst hemp
      simp [find_user_by_name] at h
    · unfold find_user_by_name at h
      rw [if_neg hemp] at h
      rcases hfp : first_pass (pyLower name) users with _ | r0
      · rw [hfp] at h
        rcases hfs : fuzzy_scan (pyLower name) (none, 0) users with ⟨o, s'⟩
        rw [hfs] at h
        simp only at h
        subst h
        rcases fuzzy_scan_eq_some (pyLower name) users none 0 r s' hfs with
          ⟨ha, _, _⟩ | ⟨pre, post, hsplit, hscore, hfield, _, _, hgt45, hpre,
            hpost⟩
        · exact absurd ha (by simp)
        · have hnomatch := first_pass_eq_none (pyLower name) users hfp
          refine ⟨Or.inr (Or.inr hfield), ?_, ?_, ?_, hconv⟩
          · intro hf
            rw [hfield] at hf
            exact absurd hf (by decide)
          · intro hf
            rw [hfield] at hf
            exact absurd hf (by decide)
          · intro _
            refine ⟨hscore, hgt45, ?_, hnomatch⟩
            intro u hu
            rw [hsplit] at hu
            rcases List.mem_append.mp hu with hu | hu
            · exact le_of_lt (hpre u hu)
            · rcases List.mem_cons.mp hu with rfl | hu
              · exact le_of_eq hscore.symm
              · rcases hpost u hu with hle | hle
                · exact hle
                · exact le_trans hle (le_of_lt hgt45)
      · rw [hfp] at h
        simp only at h
        obtain rfl := Option.some_inj.mp h
        obtain ⟨pre, post, hsplit, hpre, hcase⟩ :=
          first_pass_eq_some (pyLower name) users r0 hfp
        rcases hcase with ⟨hex, hsc, hfield⟩ | ⟨hex, hsub, hsc, hfield⟩
        · refine ⟨Or.inl hfield, ?_, ?_, ?_, hconv⟩
          · intro _
            exact ⟨hsc, hex, pre, post, hsplit, hpre⟩
          · intro hf
            rw [hfield] at hf
            exact absurd hf (by decide)
          · intro hf
            rw [hfield] at hf
            exact absurd hf (by decide)
        · refine ⟨Or.inr (Or.inl hfield), ?_, ?_, ?_, hconv⟩
          · intro hf
            rw [hfield] at hf
            exact absurd hf (by decide)
          · intro _
            exact ⟨hsc, hsub, hex, pre, post, hsplit, hpre⟩
          · intro hf
            rw [hfield] at hf
            exact absurd hf (by decide)
  · intro h
    have hconv : convert_name_to_mention users name = "@" ++ name := by
      unfold convert_name_to_mention
      rw [h]
    by_cases hemp : users = []
    · subst hemp
      exact ⟨by simp, hconv⟩
    · unfold find_user_by_name at h
      rw [if_neg hemp] at h
      rcases hfp : first_pass (pyLower name) users with _ | r0
      · rw [hfp] at h
        rcases hfs : fuzzy_scan (pyLower name) (none, 0) users with ⟨o, s'⟩
        rw [hfs] at h
        simp only at h
        subst h
        obtain ⟨_, _, hall⟩ :=
          fuzzy_scan_eq_none (pyLower name) users none 0 s' hfs
        have hnomatch := first_pass_eq_none (pyLower name) users hfp
        refine ⟨?_, hconv⟩
        intro u hu
        refine ⟨(hnomatch u hu).1, (hnomatch u hu).2, ?_⟩
        rcases hall u hu with hle | hle
        · exact le_trans hle (by rw [Rat.mkRat_eq_div]; norm_num)
        · exact hle
      · rw [hfp] at h
        simp at h

/-- Witness for C4 (amended): a one-entry directory where the input equals
the handle resolves exactly with confidence 1.0 and mention markup. -/
theorem c4_resolver_characterization_witness :
    find_user_by_name [⟨"U1", "Alice", "alice", "", false, false⟩] "alice" =
      some ⟨⟨"U1", "Alice", "alice", "", false, false⟩, 1, "exact_match"⟩ ∧
    convert_name_to_mention
      [⟨"U1", "Alice", "alice", "", false, false⟩] "alice" = "<@U1>" := by
  refine ⟨by decide, ?_⟩
  exact ((c4_resolver_characterization
    [⟨"U1", "Alice", "alice", "", false, false⟩] "alice").1
    ⟨⟨"U1", "Alice", "alice", "", false, false⟩, 1, "exact_match"⟩
    (by decide)).2.2.2.2

/-- C5 (counterexample): two directory entries share the real name
`Alice Smith`; the input `Alice Smyth` gives both the same fuzzy score
10/11 > 0.8, no exact or substring match fires, and the resolver returns the
FIRST entry `U1` — not the last-seen one the claim predicts. -/
theorem c5_fuzzy_tie_keeps_first_seen :
    first_pass (pyLower "Alice Smyth")
      [⟨"U1", "Alice Smith", "a1", "", false, false⟩,
       ⟨"U2", "Alice Smith", "a2", "", false, false⟩] = none ∧
    user_fuzzy_score (pyLower "Alice Smyth")
        ⟨"U1", "Alice Smith", "a1", "", false, false⟩ =
      user_fuzzy_score (pyLower "Alice Smyth")
        ⟨"U2", "Alice Smith", "a2", "", false, false⟩ ∧
    user_fuzzy_score (pyLower "Alice Smyth")
        ⟨"U1", "Alice Smith", "a1", "", false, false⟩ > mkRat 4 5 ∧
    (find_user_by_name
      [⟨"U1", "Alice Smith", "a1", "", false, false⟩,
       ⟨"U2", "Alice Smith", "a2", "", false, false⟩] "Alice Smyth").map
      (fun r => r.user.id) = some "U1" := by
  decide

/-- C5 (amended): the first directory entry encountered wins ties in the
exact and substring matching (an entry tying with the result can only occur
after it, since everything before the result matches neither way), and the
fuzzy pass keeps the single highest score seen with the FIRST-seen entry
winning exact score ties: every entry before the returned one scores
strictly lower, and no entry anywhere scores higher. -/
theorem c5_tie_breaking (users : List SlackUser) (name : String)
    (r : MatchResult) (h : find_user_by_name users name = some r) :
    (r.matched_field = "exact_match" ∨ r.matched_field = "substring_match" →
      ∃ pre post, users = pre ++ r.user :: post ∧
        ∀ v ∈ pre, user_exact_match (pyLower name) v = false ∧
          user_substring_match (pyLower name) v = false) ∧
    (r.matched_field = "fuzzy_match" →
      ∃ pre post, users = pre ++ r.user :: post ∧
        (∀ v ∈ pre, user_fuzzy_score (pyLower name) v < r.score) ∧
        (∀ v ∈ users, user_fuzzy_score (pyLower name) v ≤ r.score)) := by
  by_cases hemp : users = []
  · subst hemp
    simp [find_user_by_name] at h
  · unfold find_user_by_name at h
    rw [if_neg hemp] at h
    rcases hfp : first_pass (pyLower name) users with _ | r0
    · rw [hfp] at h
      rcases hfs : fuzzy_scan (pyLower name) (none, 0) users with ⟨o, s'⟩
      rw [hfs] at h
      simp only at h
      subst h
      rcases fuzzy_scan_eq_some (pyLower name) users none 0 r s' hfs with
        ⟨ha, _, _⟩ | ⟨pre, post, hsplit, hscore, hfield, _, _, hgt45, hpre,
          hpost⟩
      · exact absurd ha (by simp)
      · constructor
        · intro hf
          rcases hf with hf | hf <;> rw [hfield] at hf <;>
            exact absurd hf (by decide)
        · intro _
          refine ⟨pre, post, hsplit, ?_, ?_⟩
          · intro v hv
            exact hpre v hv
          · intro v hv
            rw [hsplit] at hv
            rcases List.mem_append.mp hv with hv | hv
            · exact le_of_lt (hpre v hv)
            · rcases List.mem_cons.mp hv with rfl | hv
              · exact le_of_eq hscore.symm
              · rcases hpost v hv with hle | hle
                · exact hle
                · exact le_trans hle (le_of_lt hgt45)
    · rw [hfp] at h
      simp only at h
      obtain rfl := Option.some_inj.mp h
      obtain ⟨pre, post, hsplit, hpre, hcase⟩ :=
        first_pass_eq_some (pyLower name) users r0 hfp
      constructor
      · intro _
        exact ⟨pre, post, hsplit, hpre⟩
      · intro hf
        rcases hcase with ⟨_, _, hfield⟩ | ⟨_, _, _, hfield⟩ <;>
          rw [hfield] at hf <;> exact absurd hf (by decide)

/-- Witness for C5 (amended): with two distinct exact-matching entries the
resolver returns the first, and the amendment's decomposition puts the other
entry strictly after it. -/
theorem c5_tie_breaking_witness :
    find_user_by_name
      [⟨"U1", "Alice", "a1", "", false, false⟩,
       ⟨"U2", "Alice", "a2", "", false, false⟩] "Alice" =
      some ⟨⟨"U1", "Alice", "a1", "", false, false⟩, 1, "exact_match"⟩ ∧
    ∃ pre post,
      [(⟨"U1", "Alice", "a1", "", false, false⟩ : SlackUser),
       ⟨"U2", "Alice", "a2", "", false, false⟩] =
        pre ++ (⟨"U1", "Alice", "a1", "", false, false⟩ : SlackUser) :: post ∧
      ∀ v ∈ pre, user_exact_match (pyLower "Alice") v = false ∧
        user_substring_match (pyLower "Alice") v = false := by
  refine ⟨by decide, ?_⟩
  exact (c5_tie_breaking
    [⟨"U1", "Alice", "a1", "", false, false⟩,
     ⟨"U2", "Alice", "a2", "", false, false⟩] "Alice"
    ⟨⟨"U1", "Alice", "a1", "", false, false⟩, 1, "exact_match"⟩
    (by decide)).1 (Or.inl (by decide))

theorem thread_scan_spec (hl : String) :
    ∀ (msgs : List ChannelMsg) (a : Option ChannelMsg) (b : ℚ),
      (∀ x ∈ msgs, msg_skipped x = false →
        thread_score hl (msg_norm x) ≤ (thread_scan hl (a, b) msgs).2) ∧
      b ≤ (thread_scan hl (a, b) msgs).2 ∧
      ((thread_scan hl (a, b) msgs).1 = a ∧
         (thread_scan hl (a, b) msgs).2 = b ∨
       ∃ m ∈ msgs, msg_skipped m = false ∧
         (thread_scan hl (a, b) msgs).1 = some m ∧
         (thread_scan hl (a, b) msgs).2 = thread_score hl (msg_norm m)) := by
  intro msgs
  induction msgs with
  | nil =>
    intro a b
    exact ⟨by simp, le_refl b, Or.inl ⟨rfl, rfl⟩⟩
  | cons x rest ih =>
    intro a b
    by_cases hsk : msg_skipped x = true
    · have hrw : thread_scan hl (a, b) (x :: rest) =
          thread_scan hl (a, b) rest := by
        simp [thread_scan, hsk]
      obtain ⟨h1, h2, h3⟩ := ih a b
      refine ⟨?_, by rw [hrw]; exact h2, ?_⟩
      · intro y hy hyc
        rcases List.mem_cons.mp hy with rfl | hy
        · rw [hsk] at hyc
          exact absurd hyc (by decide)
        · rw [hrw]
          exact h1 y hy hyc
      · rw [hrw]
        rcases h3 with h3 | ⟨m, hm, hmc, hres⟩
        · exact Or.inl h3
        · exact Or.inr ⟨m, List.mem_cons_of_mem x hm, hmc, hres⟩
    · have hsk' : msg_skipped x = false := Bool.eq_false_iff.mpr (by simpa using hsk)
      by_cases hgt : thread_score hl (msg_norm x) > b
      · have hrw : thread_scan hl (a, b) (x :: rest) =
            thread_scan hl (some x, thread_score hl (msg_norm x)) rest := by
          simp [thread_scan, hsk, hgt]
        obtain ⟨h1, h2, h3⟩ := ih (some x) (thread_score hl (msg_norm x))
        refine ⟨?_, by rw [hrw]; exact le_trans (le_of_lt hgt) h2, ?_⟩
        · intro y hy hyc
          rcases List.mem_cons.mp hy with rfl | hy
          · rw [hrw]
            exact h2
          · rw [hrw]
            exact h1 y hy hyc
        · rw [hrw]
          rcases h3 with ⟨hres1, hres2⟩ | ⟨m, hm, hmc, hres⟩
          · exact Or.inr ⟨x, List.mem_cons_self x rest, hsk', hres1, hres2⟩
          · exact Or.inr ⟨m, List.mem_cons_of_mem x hm, hmc, hres⟩
      · have hrw : thread_scan hl (a, b) (x :: rest) =
            thread_scan hl (a, b) rest := by
          simp [thread_scan, hsk, hgt]
        obtain ⟨h1, h2, h3⟩ := ih a b
        push_neg at hgt
        refine ⟨?_, by rw [hrw]; exact h2, ?_⟩
        · intro y hy hyc
          rcases List.mem_cons.mp hy with rfl | hy
          · rw [hrw]
            exact le_trans hgt h2
          · rw [hrw]
            exact h1 y hy hyc
        · rw [hrw]
          rcases h3 with h3 | ⟨m, hm, hmc, hres⟩
          · exact Or.inl h3
          · exact Or.inr ⟨m, List.mem_cons_of_mem x hm, hmc, hres⟩

/-- C6: the Thread Resolver returns `None` immediately for an empty or
missing content hint — for every possible channel history, so no history
fetch can matter; otherwise it scores the (up to 50, per the fetch limit)
non-system messages by similarity of the lower-cased trimmed texts, where
containment in either direction forces the score to at least 0.8, and it
returns the best-scoring message's timestamp only when that score strictly
exceeds 0.7 — it never returns an anchor scoring ≤ 0.7. -/
theorem c6_thread_resolver (history : List ChannelMsg)
    (hint : Option String) :
    (optTruthy hint = false →
      ∀ anyHistory : List ChannelMsg,
        find_matching_thread anyHistory hint = none) ∧
    conversations_history_limit = 50 ∧
    (∀ a b : String, (pyIn a b || pyIn b a) = true →
      thread_score a b ≥ mkRat 4 5) ∧
    (∀ ts, find_matching_thread history hint = some ts →
      ∃ m ∈ history, msg_skipped m = false ∧ m.ts = ts ∧
        thread_score (pyStrip (pyLower (hint.getD ""))) (msg_norm m) >
          mkRat 7 10 ∧
        ∀ x ∈ history, msg_skipped x = false →
          thread_score (pyStrip (pyLower (hint.getD ""))) (msg_norm x) ≤
            thread_score (pyStrip (pyLower (hint.getD ""))) (msg_norm m)) := by
  refine ⟨?_, rfl, ?_, ?_⟩
  · intro hf anyHistory
    unfold find_matching_thread
    rw [hf]
    simp
  · intro a b hin
    unfold thread_score
    rw [if_pos hin, qmax_eq_max]
    exact le_max_right _ _
  · intro ts h
    unfold find_matching_thread at h
    by_cases hf : optTruthy hint = false
    · rw [hf] at h
      simp at h
    · rw [Bool.not_eq_false] at hf
      rw [hf] at h
      simp only [Bool.true_eq_false, if_false] at h
      obtain ⟨h1, h2, h3⟩ := thread_scan_spec
        (pyStrip (pyLower (hint.getD ""))) history none 0
      rcases h3 with ⟨hres1, _⟩ | ⟨m, hm, hmc, hres1, hres2⟩
      · rw [hres1] at h
        simp at h
      · rw [hres1] at h
        have hmatch : (if (thread_scan (pyStrip (pyLower (hint.getD "")))
            (none, 0) history).2 > mkRat 7 10 then some m.ts else none) =
              some ts := h
        by_cases hthr : (thread_scan (pyStrip (pyLower (hint.getD "")))
            (none, 0) history).2 > mkRat 7 10
        · rw [if_pos hthr] at hmatch
          obtain rfl := Option.some_inj.mp hmatch
          refine ⟨m, hm, hmc, rfl, ?_, ?_⟩
          · rw [← hres2]
            exact hthr
          · intro x hx hxc
            rw [← hres2]
            exact h1 x hx hxc
        · rw [if_neg hthr] at hmatch
          exact absurd hmatch (by simp)

/-- Witness for C6: a history whose sole message equals the hint resolves to
that message's timestamp with a full score. -/
theorem c6_thread_resolver_witness :
    find_matching_thread [⟨"1.100", "hi", none⟩]
      (some "hi") = some "1.100" ∧
    ∃ m ∈ [(⟨"1.100", "hi", none⟩ : ChannelMsg)],
      msg_skipped m = false ∧ m.ts = "1.100" ∧
      thread_score (pyStrip (pyLower ((some "hi").getD "")))
        (msg_norm m) > mkRat 7 10 ∧
      ∀ x ∈ [(⟨"1.100", "hi", none⟩ : ChannelMsg)],
        msg_skipped x = false →
        thread_score (pyStrip (pyLower ((some "hi").getD "")))
          (msg_norm x) ≤
        thread_score (pyStrip (pyLower ((some "hi").getD "")))
          (msg_norm m) := by
  refine ⟨by decide, ?_⟩
  exact (c6_thread_resolver [⟨"1.100", "hi", none⟩]
    (some "hi")).2.2.2 "1.100" (by decide)

/-- C7: when a delivery call supplies thread content, no explicit thread
timestamp, and no channel message clears the matching threshold,
`send_type1_message` returns a failure carrying an error and a suggestion
and issues no post at all — it never silently creates a new top-level
message. -/
theorem c7_no_silent_top_level_message (env : SlackEnv)
    (file_link author receiver : String)
    (thread_content thread_ts custom_date raw_data_link : Option String)
    (hts : optTruthy thread_ts = false)
    (hc : optTruthy thread_content = true)
    (hmatch : find_matching_thread env.history thread_content = none) :
    (send_type1_message env file_link author receiver thread_content
        thread_ts custom_date raw_data_link).1.success = false ∧
    (send_type1_message env file_link author receiver thread_content
        thread_ts custom_date raw_data_link).1.error.isSome = true ∧
    (send_type1_message env file_link author receiver thread_content
        thread_ts custom_date raw_data_link).1.suggestion.isSome = true ∧
    (send_type1_message env file_link author receiver thread_content
        thread_ts custom_date raw_data_link).2 = [] := by
  unfold send_type1_message
  rw [hts, hc, hmatch]
  simp

/-- Witness for C7: hint `release notes` against a history that only talks
about lunch: the call fails with error and suggestion and posts nothing. -/
theorem c7_no_silent_top_level_message_witness :
    optTruthy (some "abc") = true ∧
    find_matching_thread [⟨"1.1", "xyz", none⟩]
      (some "abc") = none ∧
    (send_type1_message
        ⟨[], [⟨"1.1", "xyz", none⟩], .ok "2.2",
         .ok "F1", true, "C123", "2026/10/12"⟩
        "http://x" "alice" "bob" (some "abc") none
        none none).1.success = false ∧
    (send_type1_message
        ⟨[], [⟨"1.1", "xyz", none⟩], .ok "2.2",
         .ok "F1", true, "C123", "2026/10/12"⟩
        "http://x" "alice" "bob" (some "abc") none
        none none).2 = [] := by
  refine ⟨by decide, by decide, ?_, ?_⟩
  · exact (c7_no_silent_top_level_message
      ⟨[], [⟨"1.1", "xyz", none⟩], .ok "2.2",
       .ok "F1", true, "C123", "2026/10/12"⟩
      "http://x" "alice" "bob" (some "abc") none
      none none (by decide) (by decide) (by decide)).1
  · exact (c7_no_silent_top_level_message
      ⟨[], [⟨"1.1", "xyz", none⟩], .ok "2.2",
       .ok "F1", true, "C123", "2026/10/12"⟩
      "http://x" "alice" "bob" (some "abc") none
      none none (by decide) (by decide) (by decide)).2.2.2

theorem post_message_cases (env : SlackEnv) (message : String)
    (target : Option String) :
    ((post_message env message target).1.success = false →
      (post_message env message target).1.error.isSome = true) ∧
    ((post_message env message target).1.success = true →
      env.postOutcome.isOk = true) := by
  unfold post_message
  rcases env.postOutcome with e | ts
  · simp
  · rcases target with _ | t <;> simp [Except.isOk, Except.toBool]

theorem upload_file_cases (env : SlackEnv) (file_path message : String)
    (target : Option String) :
    ((upload_file env file_path message target).1.success = false →
      (upload_file env file_path message target).1.error.isSome = true) ∧
    ((upload_file env file_path message target).1.success = true →
      env.uploadOutcome.isOk = true ∧ env.fileOk = true) := by
  unfold upload_file
  by_cases hfo : env.fileOk = false
  · simp [hfo]
  · rw [if_neg hfo]
    rw [Bool.not_eq_false] at hfo
    rcases env.uploadOutcome with e | fid
    · simp
    · rcases target with _ | t <;> simp [Except.isOk, Except.toBool, hfo]

/-- C10: both public send methods are total: every call returns a result
whose boolean `success` is `false` only together with an error string —
Slack API errors, a missing file and the unresolvable-thread case are all
mapped to failure results instead of propagating — and `success = true`
requires the underlying post (respectively upload, with the file present)
to have gone through. -/
theorem c10_send_methods_total (env : SlackEnv)
    (file_ref author receiver : String)
    (thread_content thread_ts custom_date raw_data_link : Option String) :
    ((send_type1_message env file_ref author receiver thread_content
        thread_ts custom_date raw_data_link).1.success = false →
      (send_type1_message env file_ref author receiver thread_content
        thread_ts custom_date raw_data_link).1.error.isSome = true) ∧
    ((send_type1_message env file_ref author receiver thread_content
        thread_ts custom_date raw_data_link).1.success = true →
      env.postOutcome.isOk = true) ∧
    ((send_type1_message_with_file env file_ref author receiver
        thread_content thread_ts custom_date raw_data_link).1.success =
          false →
      (send_type1_message_with_file env file_ref author receiver
        thread_content thread_ts custom_date raw_data_link).1.error.isSome =
          true) ∧
    ((send_type1_message_with_file env file_ref author receiver
        thread_content thread_ts custom_date raw_data_link).1.success =
          true →
      env.uploadOutcome.isOk = true ∧ env.fileOk = true) := by
  unfold send_type1_message send_type1_message_with_file
  by_cases h1 : optTruthy thread_ts = true
  · rw [h1]
    simp only [if_true]
    exact ⟨(post_message_cases env _ _).1, (post_message_cases env _ _).2,
      (upload_file_cases env _ _ _).1, (upload_file_cases env _ _ _).2⟩
  · rw [Bool.not_eq_true] at h1
    rw [h1]
    simp only [Bool.false_eq_true, if_false]
    by_cases h2 : optTruthy thread_content = true
    · rw [h2]
      simp only [if_true]
      rcases hm : find_matching_thread env.history thread_content with _ | ts
      · simp
      · exact ⟨(post_message_cases env _ _).1, (post_message_cases env _ _).2,
          (upload_file_cases env _ _ _).1, (upload_file_cases env _ _ _).2⟩
    · rw [Bool.not_eq_true] at h2
      rw [h2]
      simp only [Bool.false_eq_true, if_false]
      exact ⟨(post_message_cases env _ _).1, (post_message_cases env _ _).2,
        (upload_file_cases env _ _ _).1, (upload_file_cases env _ _ _).2⟩

/-- Witness for C10: a Slack API error on the post is mapped to
`success=False` with an error string. -/
theorem c10_send_methods_total_witness :
    (send_type1_message
        ⟨[], [], .error "channel_not_found", .ok "F1", true, "C123",
         "2026/10/12"⟩
        "http://x" "alice" "bob" none none none
        none).1.success = false ∧
    (send_type1_message
        ⟨[], [], .error "channel_not_found", .ok "F1", true, "C123",
         "2026/10/12"⟩
        "http://x" "alice" "bob" none none none
        none).1.error.isSome = true := by
  refine ⟨by decide, ?_⟩
  exact (c10_send_methods_total
    ⟨[], [], .error "channel_not_found", .ok "F1", true, "C123",
     "2026/10/12"⟩
    "http://x" "alice" "bob" none none none none).1
    (by decide)

theorem digitChar_inj_fin :
    ∀ x y : Fin 10, Nat.digitChar x.val = Nat.digitChar y.val → x = y := by
  decide

theorem digitChar_inj (a b : Nat) (ha : a < 10) (hb : b < 10)
    (h : Nat.digitChar a = Nat.digitChar b) : a = b := by
  have := digitChar_inj_fin ⟨a, ha⟩ ⟨b, hb⟩ h
  exact congrArg Fin.val this

theorem twoDigits_inj (a b : Nat) (ha : a < 100) (hb : b < 100)
    (h : twoDigits a = twoDigits b) : a = b := by
  unfold twoDigits at h
  have h := congrArg String.data h
  simp only [List.cons.injEq, and_true] at h
  have h1 := digitChar_inj (a / 10) (b / 10) (by omega) (by omega) h.1
  have h2 := digitChar_inj (a % 10) (b % 10) (by omega) (by omega) h.2
  omega

theorem hmStr_inj (t1 t2 : JstTime) (h1h : t1.hour < 24)
    (h1m : t1.minute < 60) (h2h : t2.hour < 24) (h2m : t2.minute < 60)
    (h : t1.hmStr = t2.hmStr) : t1.hour = t2.hour ∧ t1.minute = t2.minute := by
  unfold JstTime.hmStr at h
  have hd := congrArg String.data h
  simp only [String.data_append] at hd
  unfold twoDigits at hd
  simp only [List.cons_append, List.nil_append, List.cons.injEq,
    and_true] at hd
  obtain ⟨e1, e2, _, e3, e4⟩ := hd
  have g1 := digitChar_inj _ _ (by omega) (by omega) e1
  have g2 := digitChar_inj _ _ (by omega) (by omega) e2
  have g3 := digitChar_inj _ _ (by omega) (by omega) e3
  have g4 := digitChar_inj _ _ (by omega) (by omega) e4
  omega

theorem dedup_key_inj (name : String) (t1 t2 : JstTime) (h1h : t1.hour < 24)
    (h1m : t1.minute < 60) (h2h : t2.hour < 24) (h2m : t2.minute < 60)
    (hne : ¬(t1.hour = t2.hour ∧ t1.minute = t2.minute)) :
    dedup_key name (some t1) ≠ dedup_key name (some t2) := by
  intro he
  unfold dedup_key at he
  have hd := congrArg String.data he
  simp only [String.data_append] at hd
  have hc : t1.hmStr.data = t2.hmStr.data := List.append_cancel_left hd
  exact hne (hmStr_inj t1 t2 h1h h1m h2h h2m (String.ext hc))

theorem mark_as_delivered_preserves (st : AutoState) (env : AutoEnv)
    (report_name : String) (info : DeliverResult) (sched : Option JstTime)
    (day key : String) (r : DeliveredRec)
    (h : alookup ((alookup st.autoLog day).getD []) key = some r)
    (hguard : is_already_delivered_today st.autoLog env.todayStr report_name
      sched = false) :
    alookup ((alookup (mark_as_delivered st env report_name info
      sched).autoLog day).getD []) key = some r := by
  unfold mark_as_delivered
  simp only
  by_cases hday : day = env.todayStr
  · subst hday
    rw [alookup_aset, if_pos rfl, Option.getD_some, alookup_aset]
    by_cases hkey : key = dedup_key report_name sched
    · subst hkey
      unfold is_already_delivered_today at hguard
      rw [h] at hguard
      exact absurd hguard (by simp)
    · rw [if_neg hkey]
      exact h
  · rw [alookup_aset, if_neg hday]
    exact h

theorem process_row_skips_delivered (env : AutoEnv)
    (automatic_reports : List (String × Dict)) (st : AutoState)
    (row : SheetRow) (rid : String) (report : Dict) (sched : JstTime)
    (hfind : automatic_reports.find? (fun p =>
      decide (asStrD (dget p.2 "automatic_task_id" (.str "")) "" =
        row.task_id)) = some (rid, report))
    (hparse : parse_scheduled_time env.current.day row.delivery_time =
      some sched)
    (hdel : is_already_delivered_today st.autoLog env.todayStr row.task_id
      (some sched) = true) :
    process_row env automatic_reports st row = (st, []) := by
  unfold process_row
  rw [hfind, hparse]
  simp [hdel]

theorem process_row_preserves (env : AutoEnv)
    (automatic_reports : List (String × Dict)) (st : AutoState)
    (row : SheetRow) (day key : String) (r : DeliveredRec)
    (h : alookup ((alookup st.autoLog day).getD []) key = some r) :
    alookup ((alookup (process_row env automatic_reports st
      row).1.autoLog day).getD []) key = some r := by
  unfold process_row
  rcases hfind : automatic_reports.find? (fun p =>
      decide (asStrD (dget p.2 "automatic_task_id" (.str "")) "" =
        row.task_id)) with _ | ⟨rid, report⟩
  · rw [hfind]
    exact h
  · rw [hfind]
    rcases hparse : parse_scheduled_time env.current.day row.delivery_time
      with _ | sched
    · exact h
    · simp only
      by_cases hdel : is_already_delivered_today st.autoLog env.todayStr
          row.task_id (some sched) = true
      · rw [if_pos hdel]
        exact h
      · rw [Bool.not_eq_true] at hdel
        rw [hdel]
        simp only [Bool.false_eq_true, if_false]
        by_cases hwin : should_check_now env.current sched = false
        · rw [if_pos hwin]
          exact h
        · rw [if_neg hwin]
          by_cases hst : row.status ≠ "完了"
          · rw [if_pos hst]
            exact h
          · rw [if_neg hst]
            simp only
            by_cases hsucc : (deliver_report env row.task_id report
                row).success = true
            · rw [if_pos hsucc]
              exact mark_as_delivered_preserves st env row.task_id _
                (some sched) day key r h hdel
            · rw [if_neg hsucc]
              exact h

theorem process_rows_preserves (env : AutoEnv)
    (automatic_reports : List (String × Dict)) :
    ∀ (rows : List SheetRow) (st : AutoState) (day key : String)
      (r : DeliveredRec),
      alookup ((alookup st.autoLog day).getD []) key = some r →
      alookup ((alookup (process_rows env automatic_reports st
        rows).1.autoLog day).getD []) key = some r := by
  intro rows
  induction rows with
  | nil =>
    intro st day key r h
    exact h
  | cons row rest ih =>
    intro st day key r h
    unfold process_rows
    simp only
    exact ih _ day key r
      (process_row_preserves env automatic_reports st row day key r h)

/-- C3: (1) two distinct deadline clock times of the same report map to two
distinct dedup keys `report_name_HH:MM`; (2) a matched row whose dedup key
already has a delivered entry for today is skipped outright — no state
change, no result; (3) consequently an existing dedup entry is never
overwritten by any later processing: across any sequence of rows (and hence
any sequence of cycles) at most the one original entry per (day, key) ever
exists. -/
theorem c3_at_most_once_per_dedup_key :
    (∀ (name : String) (t1 t2 : JstTime), t1.hour < 24 → t1.minute < 60 →
      t2.hour < 24 → t2.minute < 60 →
      ¬(t1.hour = t2.hour ∧ t1.minute = t2.minute) →
      dedup_key name (some t1) ≠ dedup_key name (some t2)) ∧
    (∀ (env : AutoEnv) (automatic_reports : List (String × Dict))
      (st : AutoState) (row : SheetRow) (rid : String) (report : Dict)
      (sched : JstTime),
      automatic_reports.find? (fun p =>
        decide (asStrD (dget p.2 "automatic_task_id" (.str "")) "" =
          row.task_id)) = some (rid, report) →
      parse_scheduled_time env.current.day row.delivery_time = some sched →
      is_already_delivered_today st.autoLog env.todayStr row.task_id
        (some sched) = true →
      process_row env automatic_reports st row = (st, [])) ∧
    (∀ (env : AutoEnv) (enabled : Bool) (reports : Reports)
      (rows : List SheetRow) (st : AutoState) (day key : String)
      (r : DeliveredRec),
      alookup ((alookup st.autoLog day).getD []) key = some r →
      alookup ((alookup (process_automatic_deliveries env enabled reports
        rows st).1.autoLog day).getD []) key = some r) := by
  refine ⟨dedup_key_inj, process_row_skips_delivered, ?_⟩
  intro env enabled reports rows st day key r h
  unfold process_automatic_deliveries
  by_cases hen : enabled = false
  · rw [if_pos hen]
    exact h
  · rw [if_neg hen]
    simp only
    by_cases hfil : reports.filter (fun p =>
        decide (alookup p.2 "delivery_mode" = some (.str "automatic"))) = []
    · rw [if_pos hfil]
      exact h
    · rw [if_neg hfil]
      by_cases hurl : env.status_url_configured = false
      · rw [if_pos hurl]
        exact h
      · rw [if_neg hurl]
        exact process_rows_preserves env _ rows st day key r h

/-- Witness for C3: two deadlines 17:30 and 18:00 of report `T-100` give the
distinct keys `T-100_17:30` and `T-100_18:00`, and a row whose key is
already delivered today is skipped without touching the state. -/
theorem c3_at_most_once_per_dedup_key_witness :
    dedup_key "T-100" (some ⟨20000, 17, 30, 0⟩) ≠
      dedup_key "T-100" (some ⟨20000, 18, 0, 0⟩) ∧
    process_row
      ⟨⟨20000, 17, 27, 0⟩, "2026-10-12", "t", fun _ => ⟨true, none, none,
        none, none, none, none, none⟩, some "C999", true, true⟩
      [("RPT_00001", [("automatic_task_id", Value.str "T-100")])]
      ⟨[("2026-10-12", [("T-100_17:30",
          ⟨"t0", some ⟨20000, 17, 30, 0⟩, ⟨true, none, none, none⟩,
           "T-100", some "17:30"⟩)])], []⟩
      ⟨"T-100", "完了", "17:30", "", "", ""⟩ =
    (⟨[("2026-10-12", [("T-100_17:30",
          ⟨"t0", some ⟨20000, 17, 30, 0⟩, ⟨true, none, none, none⟩,
           "T-100", some "17:30"⟩)])], []⟩, []) := by
  constructor
  · exact c3_at_most_once_per_dedup_key.1 "T-100" ⟨20000, 17, 30, 0⟩
      ⟨20000, 18, 0, 0⟩ (by decide) (by decide) (by decide) (by decide)
      (by decide)
  · exact c3_at_most_once_per_dedup_key.2.1
      ⟨⟨20000, 17, 27, 0⟩, "2026-10-12", "t", fun _ => ⟨true, none, none,
        none, none, none, none, none⟩, some "C999", true, true⟩
      [("RPT_00001", [("automatic_task_id", Value.str "T-100")])]
      ⟨[("2026-10-12", [("T-100_17:30",
          ⟨"t0", some ⟨20000, 17, 30, 0⟩, ⟨true, none, none, none⟩,
           "T-100", some "17:30"⟩)])], []⟩
      ⟨"T-100", "完了", "17:30", "", "", ""⟩ "RPT_00001"
      [("automatic_task_id", Value.str "T-100")] ⟨20000, 17, 30, 0⟩
      (by decide) (by decide) (by decide)

/-- C2 (failing input): a completed row inside the window whose Slack send
fails.  `deliver_report` wraps the failed send in `success=True`, so the
dispatcher writes the dedup entry `T-100_17:30` for today, mirrors a
`success` entry into the Delivery Log, and reports the row `delivered` —
while the underlying messaging call returned `success=False`. -/
theorem c2_failed_send_still_marked_delivered :
    ((c2_env.send ⟨"http://x", "alice", "bob", none, none,
        none⟩).success = false) ∧
    (deliver_report c2_env "T-100" c2_report
      ⟨"T-100", "完了", "17:30", "", "", ""⟩).success = true ∧
    (alookup ((alookup (process_automatic_deliveries c2_env true
        [("RPT_00001", c2_report)] [⟨"T-100", "完了", "17:30", "", "", ""⟩]
        ⟨[], []⟩).1.autoLog "2026-10-12").getD [])
      "T-100_17:30").isSome = true ∧
    (process_automatic_deliveries c2_env true [("RPT_00001", c2_report)]
      [⟨"T-100", "完了", "17:30", "", "", ""⟩]
      ⟨[], []⟩).1.mainLogs.map LogEntry.status = ["success"] ∧
    (process_automatic_deliveries c2_env true [("RPT_00001", c2_report)]
      [⟨"T-100", "完了", "17:30", "", "", ""⟩]
      ⟨[], []⟩).2.map AutoResult.status = ["delivered"] := by
  decide

end Nouhin
